import Mathlib

/-!
Shallow embedding of `src/src/main.rs` of osc-blueqat-server: a three-stage
UDP bridge (Receiver, Runner, Sender) around an external OSC codec and the
Blueqat simulator backend. External collaborators (the `rosc` codec, the
`message` schema module, the simulator) are modelled as explicit function
parameters (oracles); the stage logic itself is translated from the source.
-/

/-- Network addresses (`std::net::SocketAddr`), kept as `host:port` strings. -/
abbrev SocketAddr := String

/-- An OSC message from the external `rosc` crate. `main.rs` never inspects a
message's fields: it hands messages to the external `message` schema
(`Request::try_from`, `OscMessage::from`). We keep the OSC address string as
the message's identity; arguments live behind the schema oracles. -/
structure OscMessage where
  addr : String
  deriving DecidableEq, Repr

/-- `rosc::OscPacket`: a bare message or a bundle of packets
(`OscBundle.content`; the bundle timetag is never inspected by this core). -/
inductive OscPacket where
  | message (msg : OscMessage)
  | bundle (content : List OscPacket)

/-- Whether a packet is a bundle. -/
def OscPacket.isBundle : OscPacket → Bool
  | .message _ => false
  | .bundle _ => true

/-- Modelled from the spec: the `message` module declaring the `Request` enum
is not under `src/`; `main.rs` destructures the variants `X`, `Y`, `Z`, `H`,
`CX` and `Mz`, each carrying signed integer qubit indices (spec section 3:
"zero-based, unsigned by convention but represented as signed integers in the
wire schema"), plus an open set of further instruction kinds that the runner's
wildcard arm does not handle, collapsed here into the `other` constructor. -/
inductive Request where
  | X (n : Int)
  | Y (n : Int)
  | Z (n : Int)
  | H (n : Int)
  | CX (n1 : Int) (n2 : Int)
  | Mz (n : Int)
  | other
  deriving DecidableEq, Repr

/-- Whether a Request is the measurement instruction `Mz`. -/
def isMzReq : Request → Bool
  | .Mz _ => true
  | _ => false

/-- Modelled from the spec: the `message` module declaring the `Response` enum
is not under `src/`. The only variant this core produces is
`Response::Mz(bit, probability)` with an `i32` bit and a float probability;
the probability is only ever the literal `0.0`, so it is embedded as an exact
rational. -/
inductive Response where
  | Mz (bit : Int) (probability : Rat)
  deriving DecidableEq, Repr

/-- One instruction recorded in the external `BlueqatOperations` accumulator
(`lay` gate API calls made by `runner_loop`). -/
inductive Inst where
  | init
  | x (q : Nat)
  | y (q : Nat)
  | z (q : Nat)
  | h (q : Nat)
  | cx (c : Nat) (t : Nat)
  | measure (q : Nat)
  deriving DecidableEq, Repr

/-- The instruction accumulator ("ops"): the external `BlueqatOperations`
value, modelled by the ordered list of instructions appended to it. -/
abbrev Ops := List Inst

/-- `BlueqatOperations::new()`: a brand-new accumulator holds no instructions. -/
def BlueqatOperations.new : Ops := []

/-- `ops.x(q)` appends an X gate. -/
def Ops.x (ops : Ops) (q : Nat) : Ops := ops ++ [Inst.x q]

/-- `ops.y(q)` appends a Y gate. -/
def Ops.y (ops : Ops) (q : Nat) : Ops := ops ++ [Inst.y q]

/-- `ops.z(q)` appends a Z gate. -/
def Ops.z (ops : Ops) (q : Nat) : Ops := ops ++ [Inst.z q]

/-- `ops.h(q)` appends an H gate. -/
def Ops.h (ops : Ops) (q : Nat) : Ops := ops ++ [Inst.h q]

/-- `ops.cx(c, t)` appends a CX gate. -/
def Ops.cx (ops : Ops) (c t : Nat) : Ops := ops ++ [Inst.cx c t]

/-- `ops.measure(q, ())` appends a measurement of qubit `q`. -/
def Ops.measure (ops : Ops) (q : Nat) : Ops := ops ++ [Inst.measure q]

/-- `ops.initialize()` appends the initialize operation (run at Runner
startup). -/
def Ops.init (ops : Ops) : Ops := ops ++ [Inst.init]

/-- Whether an accumulator entry is a quantum gate (as opposed to the
initialize marker or a measurement). -/
def isGateInst : Inst → Bool
  | .x _ => true
  | .y _ => true
  | .z _ => true
  | .h _ => true
  | .cx _ _ => true
  | .init => false
  | .measure _ => false

/-- Number of gates held in an accumulator. -/
def gateCount (ops : Ops) : Nat := (ops.filter isGateInst).length

/-- Rust's `as usize` cast on a wire integer: 64-bit two's-complement
reinterpretation. -/
def usizeOfInt (n : Int) : Nat := (n % (2 : Int) ^ 64).toNat

/-- The simulator's qubit index type `<BlueqatOperations as Operations>::Qubit`
(external), modelled as `Nat`. -/
abbrev Qubit := Nat

/-- Rust's `n as Qubit` cast on a wire integer. -/
def qubitOfInt (n : Int) : Qubit := usizeOfInt n

/-- `(result.as_bytes()[i] - b'0') as i32`: wrapping `u8` subtraction of the
ASCII digit zero (48) from a result byte, then widening to `i32`. -/
def bitOf (byte : Nat) : Int := (((byte % 256) + 256 - 48) % 256 : Nat)

/-- One `runner_loop` iteration on a received Request (`main.rs` lines
94-114). The backend (`sim.send_receive`) is an oracle from the flushed
accumulator to the result byte string. `none` models a panic of the Runner
stage: the out-of-bounds index on the result string for `Mz`, and the
`unimplemented!()` arm for unhandled variants. On success it returns the new
accumulator and the list of Responses pushed for this Request. -/
def runnerStep (backend : Ops → List Nat) (ops : Ops) :
    Request → Option (Ops × List Response)
  | .X n => some (ops.x (qubitOfInt n), [])
  | .Y n => some (ops.y (qubitOfInt n), [])
  | .Z n => some (ops.z (qubitOfInt n), [])
  | .H n => some (ops.h (qubitOfInt n), [])
  | .CX n1 n2 => some (ops.cx (qubitOfInt n1) (qubitOfInt n2), [])
  | .Mz n =>
    let flushed := ops.measure (qubitOfInt n)
    let result := backend flushed
    match result.get? (usizeOfInt n) with
    | none => none
    | some byte =>
      some (BlueqatOperations.new, [Response.Mz (bitOf byte) 0])
  | .other => none

/-- The `runner_loop` over a finite list of queued Requests: the Responses
pushed, in order, and `some` final accumulator when every Request was
processed (`none` when the stage panicked partway). -/
def runnerRun (backend : Ops → List Nat) (ops : Ops) :
    List Request → List Response × Option Ops
  | [] => ([], some ops)
  | r :: rest =>
    match runnerStep backend ops r with
    | none => ([], none)
    | some (ops1, out) =>
      let k := runnerRun backend ops1 rest
      (out ++ k.1, k.2)

/-- The outcome of one `receiver_loop` iteration on one datagram: the warnings
logged, the Requests pushed onto the request queue, and `some e` when the
iteration aborts the whole loop with error `e` (via `ensure!`, `bail!` or the
`?` on `Request::try_from`). -/
structure RecvStep where
  warns : List String
  pushed : List Request
  fatal : Option String
  deriving DecidableEq, Repr

/-- Framing validation (`main.rs` lines 69-81): resolve a decoded packet to
the single message it must carry, together with the warnings logged on the
way. A bare message is accepted with a warning; a bundle must hold exactly
one message (`bundle.content.pop()` takes the sole element). -/
def unwrapPacket : OscPacket → Except String (List String × OscMessage)
  | .message msg => .ok (["receiver_loop: Message without Bundle"], msg)
  | .bundle [] => .error "Received empty bundle."
  | .bundle [OscPacket.message msg] => .ok ([], msg)
  | .bundle [OscPacket.bundle _] => .error "Received nested bundle."
  | .bundle (_ :: _ :: _) => .error "Multiple messages in same bundle."

/-- One `receiver_loop` iteration on one inbound datagram (`main.rs` lines
58-84). `decode` is the external `rosc::decoder::decode`; `tryFrom` is the
external schema's `Request::try_from`. A decode error is logged and the
datagram discarded (`continue`); a framing or conversion error aborts the
loop. -/
def recvStep (decode : List Nat → Except String OscPacket)
    (tryFrom : OscMessage → Except String Request)
    (dgram : List Nat) : RecvStep :=
  match decode dgram with
  | .error e =>
    { warns := ["receiver_loop: OSC Error " ++ e], pushed := [], fatal := none }
  | .ok packet =>
    match unwrapPacket packet with
    | .error e => { warns := [], pushed := [], fatal := some e }
    | .ok (ws, msg) =>
      match tryFrom msg with
      | .error e => { warns := ws, pushed := [], fatal := some e }
      | .ok req => { warns := ws, pushed := [req], fatal := none }

/-- The `receiver_loop` over a finite list of inbound datagrams: the Requests
pushed, in order, and `some e` when the loop terminated with error `e`
(datagrams after the fatal one are never received). -/
def receiverRun (decode : List Nat → Except String OscPacket)
    (tryFrom : OscMessage → Except String Request) :
    List (List Nat) → List Request × Option String
  | [] => ([], none)
  | d :: rest =>
    let s := recvStep decode tryFrom d
    match s.fatal with
    | some e => (s.pushed, some e)
    | none =>
      let k := receiverRun decode tryFrom rest
      (s.pushed ++ k.1, k.2)

/-- One outbound UDP datagram: payload bytes and destination address. -/
structure Datagram where
  bytes : List Nat
  dest : SocketAddr
  deriving DecidableEq, Repr

/-- The packet handed to the encoder by `sender_loop` (`main.rs` line 41): the
Response wrapped as a bare `OscPacket::Message`, not a bundle. `msgOf` is the
external schema's `OscMessage::from(&msg)`. -/
def senderPacket (msgOf : Response → OscMessage) (r : Response) : OscPacket :=
  OscPacket.message (msgOf r)

/-- The local address the Sender binds its outbound socket to (`main.rs` line
32: `std::net::UdpSocket::bind("0.0.0.0:9999")`), as a function of the
configured send address `tx_addr`, which it ignores. -/
def senderBindAddr (_txAddr : SocketAddr) : SocketAddr := "0.0.0.0:9999"

/-- One `sender_loop` iteration on a Response pulled from the response queue
(`main.rs` lines 33-47): encode the bare message via the external codec
(`encode` oracle; an encode error is fatal to the stage), then send the bytes
as one datagram to the configured `tx_addr` via `send_to`. -/
def senderStep (encode : OscPacket → Except String (List Nat))
    (msgOf : Response → OscMessage) (txAddr : SocketAddr) (r : Response) :
    Except String Datagram :=
  match encode (senderPacket msgOf r) with
  | .error e => .error e
  | .ok bytes => .ok { bytes := bytes, dest := txAddr }

/-- Concrete decode oracle for witnesses: a few fixed datagrams mapped to the
packet shapes the receiver distinguishes. -/
def decodeTest (d : List Nat) : Except String OscPacket :=
  if d = [0] then .ok (.bundle [])
  else if d = [1] then .ok (.message { addr := "/x" })
  else if d = [2] then
    .ok (.bundle [.message { addr := "/x" }, .message { addr := "/x" }])
  else if d = [3] then .ok (.bundle [.bundle []])
  else if d = [4] then .ok (.bundle [.message { addr := "/bogus" }])
  else if d = [5] then .ok (.bundle [.message { addr := "/x" }])
  else .error "bad packet"

/-- Concrete conversion oracle for witnesses: the address "/x" converts to
`Request.X 0`, everything else is an unrecognized instruction. -/
def tryFromTest (m : OscMessage) : Except String Request :=
  if m.addr = "/x" then .ok (Request.X 0) else .error "unrecognized instruction"

/-- Concrete backend oracle for witnesses: always the two-byte result "10". -/
def backendTest (_ops : Ops) : List Nat := [49, 48]

/-- Concrete encode oracle for witnesses. -/
def encodeTest (_p : OscPacket) : Except String (List Nat) := .ok [47, 109, 122]

/-- Concrete schema encoder for witnesses. -/
def msgOfTest (_r : Response) : OscMessage := { addr := "/mz" }

/-- C2: for every processed `Mz` Request, after the Response is pushed the
Runner's accumulator is replaced by `BlueqatOperations::new()` — a fresh
zero-gate instance — so a following `Mz` with no gates in between flushes a
circuit holding nothing but its own measurement, independent of everything
accumulated before the flush. -/
theorem runner_mz_resets_accumulator (backend : Ops → List Nat)
    (ops ops1 : Ops) (n n2 : Int) (out : List Response)
    (h : runnerStep backend ops (Request.Mz n) = some (ops1, out)) :
    ops1 = BlueqatOperations.new ∧ gateCount ops1 = 0 ∧
    Ops.measure ops1 (qubitOfInt n2) = [Inst.measure (qubitOfInt n2)] ∧
    gateCount (Ops.measure ops1 (qubitOfInt n2)) = 0 := by
  cases hg : (backend (Ops.measure ops (qubitOfInt n))).get? (usizeOfInt n) with
  | none =>
    simp only [runnerStep, hg] at h
    exact Option.noConfusion h
  | some byte =>
    simp only [runnerStep, hg, Option.some.injEq, Prod.mk.injEq] at h
    obtain ⟨h1, _⟩ := h
    subst h1
    exact ⟨rfl, rfl, rfl, rfl⟩

/-- C2 witness: a concrete `Mz 0` against the accumulator `[H 0]` and the
two-byte backend result "10". -/
theorem runner_mz_resets_accumulator_witness :
    runnerStep backendTest [Inst.h 0] (Request.Mz 0) =
      some ([], [Response.Mz 1 0]) ∧
    (([] : Ops) = BlueqatOperations.new ∧ gateCount [] = 0 ∧
      Ops.measure [] (qubitOfInt 1) = [Inst.measure (qubitOfInt 1)] ∧
      gateCount (Ops.measure [] (qubitOfInt 1)) = 0) :=
  ⟨by decide,
   runner_mz_resets_accumulator backendTest [Inst.h 0] [] 0 1 [Response.Mz 1 0]
     (by decide)⟩

/-- C4: the Response pushed for a processed `Mz n` is `Mz(bit, 0.0)` where
`bit` is the backend result byte at the measured qubit's index minus the ASCII
digit zero — a classical 0 or 1 whenever that byte is the character '0' or
'1' — and the probability field is exactly zero. -/
theorem runner_mz_response_bit_probability (backend : Ops → List Nat)
    (ops ops1 : Ops) (n : Int) (out : List Response) (byte : Nat)
    (h : runnerStep backend ops (Request.Mz n) = some (ops1, out))
    (hb : (backend (Ops.measure ops (qubitOfInt n))).get? (usizeOfInt n) =
      some byte) :
    out = [Response.Mz (bitOf byte) 0] ∧
    (byte = 48 → bitOf byte = 0) ∧ (byte = 49 → bitOf byte = 1) := by
  simp only [runnerStep, hb, Option.some.injEq, Prod.mk.injEq] at h
  refine ⟨h.2.symm, ?_, ?_⟩ <;> rintro rfl <;> decide

/-- C4 witness: a concrete `Mz 1` whose measured byte is the character '0'. -/
theorem runner_mz_response_bit_probability_witness :
    runnerStep backendTest [] (Request.Mz 1) = some ([], [Response.Mz 0 0]) ∧
    (backendTest (Ops.measure [] (qubitOfInt 1))).get? (usizeOfInt 1) =
      some 48 ∧
    ([Response.Mz 0 0] = [Response.Mz (bitOf 48) 0] ∧
      (48 = 48 → bitOf 48 = 0) ∧ (48 = 49 → bitOf 48 = 1)) :=
  ⟨by decide, by decide,
   runner_mz_response_bit_probability backendTest [] [] 1 [Response.Mz 0 0] 48
     (by decide) (by decide)⟩

/-- C9: processing `Mz n` succeeds exactly when the backend result string is
long enough — its byte length exceeds the measured index; on a shorter result
the unchecked indexing is out of bounds and the Runner stage panics. -/
theorem runner_mz_index_bounds (backend : Ops → List Nat) (ops : Ops)
    (n : Int) :
    (runnerStep backend ops (Request.Mz n)).isSome ↔
      usizeOfInt n < (backend (Ops.measure ops (qubitOfInt n))).length := by
  cases hg : (backend (Ops.measure ops (qubitOfInt n))).get? (usizeOfInt n) with
  | none =>
    simp only [runnerStep, hg, Option.isSome_none, Bool.false_eq_true,
      false_iff, not_lt]
    exact List.get?_eq_none.mp hg
  | some byte =>
    simp only [runnerStep, hg, Option.isSome_some, true_iff]
    obtain ⟨hlt, _⟩ := List.get?_eq_some.mp hg
    exact hlt

/-- C8: a Request outside the six handled variants is fatal to the Runner: the
step panics (`unimplemented!()`), pushing no Response and producing no next
state, and a run that meets such a Request stops there — no Response is
emitted for it and none of the Requests behind it are processed. -/
theorem runner_unhandled_request_fatal (backend : Ops → List Nat) (ops : Ops)
    (rest : List Request) :
    runnerStep backend ops Request.other = none ∧
    runnerRun backend ops (Request.other :: rest) = ([], none) := by
  exact ⟨rfl, rfl⟩

/-- C3: over any fully processed Request sequence the Runner pushes exactly
one Response per `Mz` Request and none per non-measurement gate Request, and
the pushed Responses appear in the same relative order as the `Mz` Requests
that produced them: the output is the in-order concatenation of one
per-Request block, a singleton for each `Mz` and empty otherwise. -/
theorem runner_response_per_request_fifo (backend : Ops → List Nat)
    (ops : Ops) (reqs : List Request)
    (h : (runnerRun backend ops reqs).2.isSome) :
    ∃ outs : List (List Response),
      List.Forall₂
        (fun r out =>
          (out : List Response).length = if isMzReq r then 1 else 0)
        reqs outs ∧
      (runnerRun backend ops reqs).1 = outs.flatten := by
  induction reqs generalizing ops with
  | nil => exact ⟨[], List.Forall₂.nil, rfl⟩
  | cons r rest ih =>
    cases hs : runnerStep backend ops r with
    | none =>
      rw [runnerRun, hs] at h
      simp only [Option.isSome_none, Bool.false_eq_true] at h
    | some p =>
      obtain ⟨ops1, out⟩ := p
      have h1 : (runnerRun backend ops1 rest).2.isSome := by
        rw [runnerRun, hs] at h
        exact h
      obtain ⟨outs, hall, hflat⟩ := ih ops1 h1
      refine ⟨out :: outs, List.Forall₂.cons ?_ hall, ?_⟩
      · cases r with
        | X n =>
          simp only [runnerStep, Option.some.injEq, Prod.mk.injEq] at hs
          rw [← hs.2]
          rfl
        | Y n =>
          simp only [runnerStep, Option.some.injEq, Prod.mk.injEq] at hs
          rw [← hs.2]
          rfl
        | Z n =>
          simp only [runnerStep, Option.some.injEq, Prod.mk.injEq] at hs
          rw [← hs.2]
          rfl
        | H n =>
          simp only [runnerStep, Option.some.injEq, Prod.mk.injEq] at hs
          rw [← hs.2]
          rfl
        | CX n1 n2 =>
          simp only [runnerStep, Option.some.injEq, Prod.mk.injEq] at hs
          rw [← hs.2]
          rfl
        | Mz n =>
          cases hg :
              (backend (Ops.measure ops (qubitOfInt n))).get? (usizeOfInt n) with
          | none =>
            simp only [runnerStep, hg] at hs
            exact Option.noConfusion hs
          | some byte =>
            simp only [runnerStep, hg, Option.some.injEq, Prod.mk.injEq] at hs
            rw [← hs.2]
            rfl
        | other =>
          simp only [runnerStep] at hs
          exact Option.noConfusion hs
      · rw [runnerRun, hs]
        simp only [List.flatten_cons, hflat]

/-- C3 witness: the concrete sequence X 0, Mz 0, H 1, Mz 1 against the
two-byte backend result "10". -/
theorem runner_response_per_request_fifo_witness :
    (runnerRun backendTest []
      [Request.X 0, Request.Mz 0, Request.H 1, Request.Mz 1]).2.isSome ∧
    (∃ outs : List (List Response),
      List.Forall₂
        (fun r out =>
          (out : List Response).length = if isMzReq r then 1 else 0)
        [Request.X 0, Request.Mz 0, Request.H 1, Request.Mz 1] outs ∧
      (runnerRun backendTest []
        [Request.X 0, Request.Mz 0, Request.H 1, Request.Mz 1]).1 =
        outs.flatten) :=
  ⟨by decide,
   runner_response_per_request_fifo backendTest []
     [Request.X 0, Request.Mz 0, Request.H 1, Request.Mz 1] (by decide)⟩

/-- C5: an inbound datagram whose bytes fail to decode is logged and
discarded: no Request is pushed, the iteration is not fatal, and the receive
loop behaves on the remaining datagrams exactly as if the bad one had never
arrived. -/
theorem receiver_decode_error_continues
    (decode : List Nat → Except String OscPacket)
    (tryFrom : OscMessage → Except String Request) (d : List Nat)
    (rest : List (List Nat)) (e : String) (h : decode d = .error e) :
    recvStep decode tryFrom d =
      { warns := ["receiver_loop: OSC Error " ++ e], pushed := [],
        fatal := none } ∧
    receiverRun decode tryFrom (d :: rest) = receiverRun decode tryFrom rest := by
  have hs : recvStep decode tryFrom d =
      { warns := ["receiver_loop: OSC Error " ++ e], pushed := [],
        fatal := none } := by
    simp only [recvStep, h]
  refine ⟨hs, ?_⟩
  rw [receiverRun]
  simp only [hs, List.nil_append]

/-- C5 witness: a concrete undecodable datagram followed by a good one. -/
theorem receiver_decode_error_continues_witness :
    decodeTest [9] = .error "bad packet" ∧
    (recvStep decodeTest tryFromTest [9] =
      { warns := ["receiver_loop: OSC Error " ++ "bad packet"], pushed := [],
        fatal := none } ∧
    receiverRun decodeTest tryFromTest [[9], [5]] =
      receiverRun decodeTest tryFromTest [[5]]) :=
  ⟨rfl, receiver_decode_error_continues decodeTest tryFromTest [9] [[5]]
    "bad packet" rfl⟩

/-- C6: an inbound datagram decoding to a bare message (no bundle wrapper)
whose message converts to a Request is accepted with only the
message-without-bundle warning, and exactly that one Request is pushed; the
loop goes on to the next datagram. -/
theorem receiver_bare_message_accepted
    (decode : List Nat → Except String OscPacket)
    (tryFrom : OscMessage → Except String Request) (d : List Nat)
    (m : OscMessage) (r : Request) (rest : List (List Nat))
    (hd : decode d = .ok (.message m)) (hc : tryFrom m = .ok r) :
    recvStep decode tryFrom d =
      { warns := ["receiver_loop: Message without Bundle"], pushed := [r],
        fatal := none } ∧
    receiverRun decode tryFrom (d :: rest) =
      (r :: (receiverRun decode tryFrom rest).1,
        (receiverRun decode tryFrom rest).2) := by
  have hs : recvStep decode tryFrom d =
      { warns := ["receiver_loop: Message without Bundle"], pushed := [r],
        fatal := none } := by
    simp only [recvStep, hd, unwrapPacket, hc]
  refine ⟨hs, ?_⟩
  rw [receiverRun]
  simp only [hs, List.singleton_append]

/-- C6 witness: a concrete bare-message datagram converting to `X 0`. -/
theorem receiver_bare_message_accepted_witness :
    decodeTest [1] = .ok (.message { addr := "/x" }) ∧
    tryFromTest { addr := "/x" } = .ok (Request.X 0) ∧
    (recvStep decodeTest tryFromTest [1] =
      { warns := ["receiver_loop: Message without Bundle"],
        pushed := [Request.X 0], fatal := none } ∧
    receiverRun decodeTest tryFromTest [[1], [5]] =
      (Request.X 0 :: (receiverRun decodeTest tryFromTest [[5]]).1,
        (receiverRun decodeTest tryFromTest [[5]]).2)) :=
  ⟨rfl, rfl,
   receiver_bare_message_accepted decodeTest tryFromTest [1] { addr := "/x" }
     (Request.X 0) [[5]] rfl rfl⟩

/-- C1 counterexample: with a decode oracle producing an empty bundle for the
first datagram and a valid single-message bundle for the second, the receive
loop terminates at the first datagram with the framing error and never
processes the second, although the second alone yields a Request — so framing
errors do not let the loop continue to the next datagram. -/
theorem receiver_lenient_framing_cex :
    receiverRun decodeTest tryFromTest [[0], [5]] =
      ([], some "Received empty bundle.") ∧
    receiverRun decodeTest tryFromTest [[5]] = ([Request.X 0], none) := by
  constructor <;> rfl

/-- C1 (amended): a decoded datagram that fails framing validation (empty
bundle, multi-message bundle, nested bundle) or Request conversion pushes no
Request, but the error is fatal rather than merely reported: the receive loop
terminates with that error instead of continuing to the next datagram. -/
theorem receiver_framing_error_fatal
    (decode : List Nat → Except String OscPacket)
    (tryFrom : OscMessage → Except String Request)
    (d0 dm dn dc : List Nat) (p q : OscPacket) (ps content : List OscPacket)
    (m : OscMessage) (e : String) (rest : List (List Nat))
    (h0 : decode d0 = .ok (.bundle []))
    (hm : decode dm = .ok (.bundle (p :: q :: ps)))
    (hn : decode dn = .ok (.bundle [.bundle content]))
    (hc : decode dc = .ok (.bundle [.message m]))
    (he : tryFrom m = .error e) :
    recvStep decode tryFrom d0 =
      { warns := [], pushed := [], fatal := some "Received empty bundle." } ∧
    recvStep decode tryFrom dm =
      { warns := [], pushed := [],
        fatal := some "Multiple messages in same bundle." } ∧
    recvStep decode tryFrom dn =
      { warns := [], pushed := [], fatal := some "Received nested bundle." } ∧
    recvStep decode tryFrom dc =
      { warns := [], pushed := [], fatal := some e } ∧
    receiverRun decode tryFrom (d0 :: rest) =
      ([], some "Received empty bundle.") := by
  refine ⟨?_, ?_, ?_, ?_, ?_⟩
  · simp only [recvStep, h0, unwrapPacket]
  · simp only [recvStep, hm, unwrapPacket]
  · simp only [recvStep, hn, unwrapPacket]
  · simp only [recvStep, hc, unwrapPacket, he]
  · rw [receiverRun]
    simp only [recvStep, h0, unwrapPacket]

/-- C1 witness for the amended claim: concrete datagrams for all four failure
shapes, followed by a valid datagram that is never reached. -/
theorem receiver_framing_error_fatal_witness :
    decodeTest [0] = .ok (.bundle []) ∧
    decodeTest [2] =
      .ok (.bundle (OscPacket.message { addr := "/x" } ::
        OscPacket.message { addr := "/x" } :: [])) ∧
    decodeTest [3] = .ok (.bundle [.bundle []]) ∧
    decodeTest [4] = .ok (.bundle [.message { addr := "/bogus" }]) ∧
    tryFromTest { addr := "/bogus" } = .error "unrecognized instruction" ∧
    (recvStep decodeTest tryFromTest [0] =
      { warns := [], pushed := [], fatal := some "Received empty bundle." } ∧
    recvStep decodeTest tryFromTest [2] =
      { warns := [], pushed := [],
        fatal := some "Multiple messages in same bundle." } ∧
    recvStep decodeTest tryFromTest [3] =
      { warns := [], pushed := [], fatal := some "Received nested bundle." } ∧
    recvStep decodeTest tryFromTest [4] =
      { warns := [], pushed := [],
        fatal := some "unrecognized instruction" } ∧
    receiverRun decodeTest tryFromTest ([0] :: [[5]]) =
      ([], some "Received empty bundle.")) :=
  ⟨rfl, rfl, rfl, rfl, rfl,
   receiver_framing_error_fatal decodeTest tryFromTest [0] [2] [3] [4]
     (OscPacket.message { addr := "/x" }) (OscPacket.message { addr := "/x" })
     [] [] { addr := "/bogus" } "unrecognized instruction" [[5]]
     rfl rfl rfl rfl rfl⟩

/-- C7: each Response pulled from the response queue is encoded as a single
bare protocol message — the packet handed to the codec is not a bundle — and
on encode success the Sender emits exactly one datagram carrying those bytes
to the configured destination address. -/
theorem sender_encodes_bare_message_datagram
    (encode : OscPacket → Except String (List Nat))
    (msgOf : Response → OscMessage) (txAddr : SocketAddr) (r : Response)
    (bs : List Nat) (h : encode (senderPacket msgOf r) = .ok bs) :
    (senderPacket msgOf r).isBundle = false ∧
    senderStep encode msgOf txAddr r = .ok { bytes := bs, dest := txAddr } := by
  refine ⟨rfl, ?_⟩
  simp only [senderStep, h]

/-- C7 witness: a concrete Response through the concrete codec oracles. -/
theorem sender_encodes_bare_message_datagram_witness :
    encodeTest (senderPacket msgOfTest (Response.Mz 1 0)) =
      .ok [47, 109, 122] ∧
    ((senderPacket msgOfTest (Response.Mz 1 0)).isBundle = false ∧
    senderStep encodeTest msgOfTest "10.0.0.1:5000" (Response.Mz 1 0) =
      .ok { bytes := [47, 109, 122], dest := "10.0.0.1:5000" }) :=
  ⟨rfl,
   sender_encodes_bare_message_datagram encodeTest msgOfTest "10.0.0.1:5000"
     (Response.Mz 1 0) [47, 109, 122] rfl⟩

/-- C10: the Sender's outbound socket is always bound to the hardcoded local
address 0.0.0.0:9999, whatever send address is configured — the bind address
does not depend on it — while the configured address is used only as the
`send_to` destination of each outgoing datagram. -/
theorem sender_bind_hardcoded (txAddr txAddr2 : SocketAddr)
    (encode : OscPacket → Except String (List Nat))
    (msgOf : Response → OscMessage) (r : Response) (bs : List Nat)
    (h : encode (senderPacket msgOf r) = .ok bs) :
    senderBindAddr txAddr = "0.0.0.0:9999" ∧
    senderBindAddr txAddr = senderBindAddr txAddr2 ∧
    senderStep encode msgOf txAddr r = .ok { bytes := bs, dest := txAddr } := by
  refine ⟨rfl, rfl, ?_⟩
  simp only [senderStep, h]

/-- C10 witness: two distinct configured addresses yield the same hardcoded
bind address, and the datagram goes to the configured address. -/
theorem sender_bind_hardcoded_witness :
    encodeTest (senderPacket msgOfTest (Response.Mz 0 0)) =
      .ok [47, 109, 122] ∧
    (senderBindAddr "192.168.0.7:12345" = "0.0.0.0:9999" ∧
    senderBindAddr "192.168.0.7:12345" = senderBindAddr "127.0.0.1:1" ∧
    senderStep encodeTest msgOfTest "192.168.0.7:12345" (Response.Mz 0 0) =
      .ok { bytes := [47, 109, 122], dest := "192.168.0.7:12345" }) :=
  ⟨rfl,
   sender_bind_hardcoded "192.168.0.7:12345" "127.0.0.1:1" encodeTest
     msgOfTest (Response.Mz 0 0) [47, 109, 122] rfl⟩
